import Mathlib

/-
Verification of the fleet MSRC bulletin ingestion pipeline (parser, product
grouper / graph builder, build comparator, vulnerability matcher) and of the
SSO authorization-response decoder.

The MSRC pipeline implementation itself is not present in the source tree
(only its test file, server/vulnerabilities/msrc/parser_test.go, is), so the
pipeline definitions below are modelled from the specification, keeping the
names that the test file shows (parseMSRCXML, mapToVulnGraphs, ProductName,
Products, Vulnerabities, VulnerabilityRemediationXML, FixedBuild,
Supercedence, ...).  The SSO decoder is embedded from
server/sso/authorization_response.go.
-/

namespace Msrc

/-! ## Build comparator (spec section 4.3) -/

/-- Modelled from the spec: helper for splitting a dotted build string into
its components; the comparator implementation is missing from the source
tree.  Accumulates the current component (reversed) while scanning. -/
def splitDotsAux (cur : List Char) : List Char → List (List Char)
  | [] => [cur.reverse]
  | c :: cs => if c == '.' then cur.reverse :: splitDotsAux [] cs else splitDotsAux (c :: cur) cs

/-- Modelled from the spec: split a build string (as a character list) on the
fixed dot delimiter. -/
def splitDots (l : List Char) : List (List Char) := splitDotsAux [] l

/-- Modelled from the spec: decimal value of a digit string. -/
def digitsToNat (cs : List Char) : Nat := cs.foldl (fun n c => n * 10 + (c.toNat - 48)) 0

/-- Modelled from the spec: one build component is a non-empty run of decimal
digits; anything else is the InvalidVersionError case, represented as none. -/
def parseComponent (cs : List Char) : Option Nat :=
  if cs.isEmpty || cs.any (fun c => !c.isDigit) then none else some (digitsToNat cs)

/-- Modelled from the spec: parse every component or fail. -/
def parseParts : List (List Char) → Option (List Nat)
  | [] => some []
  | p :: ps =>
    match parseComponent p, parseParts ps with
    | some n, some ns => some (n :: ns)
    | _, _ => none

/-- Modelled from the spec: parseBuild turns a dotted build string into its
sequence of numeric components, failing (InvalidVersionError, represented as
none) on any non-numeric component. -/
def parseBuild (s : String) : Option (List Nat) := parseParts (splitDots s.data)

/-- Modelled from the spec: lexicographic comparison of numeric component
sequences; missing trailing components of the shorter sequence are treated
as zero. -/
def cmpParts : List Nat → List Nat → Ordering
  | [], [] => .eq
  | [], ys => if ys.all (fun y => y == 0) then .eq else .lt
  | xs, [] => if xs.all (fun x => x == 0) then .eq else .gt
  | x :: xs, y :: ys => if x < y then .lt else if y < x then .gt else cmpParts xs ys

/-- Modelled from the spec: compare two build strings, propagating a parse
failure of either side. -/
def compareBuilds (a b : String) : Option Ordering :=
  match parseBuild a, parseBuild b with
  | some x, some y => some (cmpParts x y)
  | _, _ => none

/-! ## Data model (spec section 3, field names from parser_test.go) -/

/-- Modelled from the spec: one product table entry, an opaque vendor product
ID together with the full human-readable product name. -/
structure ProductXML where
  productID : String
  fullName : String
deriving DecidableEq, Repr

/-- Modelled from the spec: one revision history entry, whose date is kept as
the literal timestamp string from the feed. -/
structure RevisionXML where
  date : String
  description : String
deriving DecidableEq, Repr

/-- Modelled from the spec: one remediation entry.  The kind tag (the Go
field named Type) is an open-ended string; the fixed build is optional; the
supersedence reference is an optional article identifier; the
restart-required flag is carried as the literal feed string. -/
structure VulnerabilityRemediationXML where
  remediationType : String
  fixedBuild : Option String
  productIDs : List String
  description : String
  supercedence : Option String
  restartRequired : String
deriving DecidableEq, Repr

/-- Modelled from the spec: one vulnerability record, keyed by CVE, with a
vendor-native floating-point score, the chronological revision history, and
an unordered collection of remediation entries. -/
structure VulnerabilityXML where
  cve : String
  score : Float
  revisions : List RevisionXML
  remediations : List VulnerabilityRemediationXML

/-- Modelled from the spec: the intermediate document produced by the parser,
a flat product table and a flat vulnerability table with no grouping. -/
structure IntermediateDoc where
  winProducts : List ProductXML
  winVulnerabities : List VulnerabilityXML

/-- Modelled from the spec: a per-product vulnerability graph; the product-ID
to full-name table restricted to this product node, and the vulnerability
records restricted to the ones referencing this node. -/
structure VulnerabilityGraph where
  productName : String
  products : List (String × String)
  vulnerabities : List VulnerabilityXML

/-- Modelled from the spec: the error taxonomy of spec section 7 that the
ingestion pipeline can surface. -/
inductive ParseError where
  | malformedInput
  | unresolvedProduct
deriving DecidableEq, Repr

/-! ## Product grouper / graph builder (spec section 4.2) -/

/-- Modelled from the spec: the deterministic display-name normalization
markers — a parenthetical qualifier, a version qualifier, or a trailing
phrase of the form for-some-systems starts the stripped suffix. -/
def groupMarkers : List String := [", version ", " Version ", " for ", " ("]

/-- Modelled from the spec: does a normalization marker start here. -/
def markerAt (l : List Char) : Bool := groupMarkers.any (fun m => m.data.isPrefixOf l)

/-- Modelled from the spec: cut the name at the first normalization marker. -/
def cutAt : List Char → List Char
  | [] => []
  | c :: cs => if markerAt (c :: cs) then [] else c :: cutAt cs

/-- Modelled from the spec: drop trailing spaces left over after the cut. -/
def trimTrailing (l : List Char) : List Char := (l.reverse.dropWhile (fun c => c == ' ')).reverse

/-- Modelled from the spec: the normalized display-name grouping key that
defines which product variants share one logical product identity. -/
def groupKey (fullName : String) : String := String.mk (trimTrailing (cutAt fullName.data))

/-- Modelled from the spec: first-occurrence deduplication of the grouping
keys, keeping feed order, with an accumulator of already-seen keys. -/
def dedupAux (seen : List String) : List String → List String
  | [] => []
  | k :: ks => if k ∈ seen then dedupAux seen ks else k :: dedupAux (k :: seen) ks

/-- Modelled from the spec: the distinct grouping keys in order of first
appearance in the product table. -/
def dedupFirst (l : List String) : List String := dedupAux [] l

/-- Modelled from the spec: the graph of one product node: the table entries
whose normalized name equals the node's key, and the vulnerabilities one of
whose remediation entries references one of the node's ProductIDs (dangling
references fall outside the member-ID list and are thereby dropped). -/
def graphFor (doc : IntermediateDoc) (k : String) : VulnerabilityGraph :=
  let members := doc.winProducts.filter (fun p => groupKey p.fullName == k)
  let ids := members.map (fun p => p.productID)
  { productName := k
    products := members.map (fun p => (p.productID, p.fullName))
    vulnerabities := doc.winVulnerabities.filter (fun v =>
      v.remediations.any (fun r => r.productIDs.any (fun pid => ids.contains pid))) }

/-- Modelled from the spec: mapToVulnGraphs, the product grouper / graph
builder.  It fails with UnresolvedProductError exactly on a structurally
empty product table, and otherwise produces one graph per distinct
normalized display-name key. -/
def mapToVulnGraphs (doc : IntermediateDoc) : Except ParseError (List VulnerabilityGraph) :=
  if doc.winProducts.isEmpty then .error .unresolvedProduct
  else .ok ((dedupFirst (doc.winProducts.map (fun p => groupKey p.fullName))).map (graphFor doc))

/-! ## Bulletin parser (spec section 4.1) -/

/-- Modelled from the spec: one raw product element as the parser sees it; the
required product-ID attribute may be absent, and the element carries the
product family branch it sits under in the product tree. -/
structure RawProduct where
  productID : Option String
  fullName : String
  family : String
deriving DecidableEq, Repr

/-- Modelled from the spec: one raw vulnerability element; the required CVE
identifier attribute may be absent. -/
structure RawVulnerability where
  cve : Option String
  score : Float
  revisions : List RevisionXML
  remediations : List VulnerabilityRemediationXML

/-- Modelled from the spec: the raw byte stream handed to the parser; either
it is not valid XML at all, or it is an element tree with product elements,
vulnerability elements, and unknown extra elements the parser must skip. -/
inductive RawBulletin where
  | invalidXML
  | doc (products : List RawProduct) (vulns : List RawVulnerability) (unknownElements : List String)

/-- Modelled from the spec: the recognized product family filter — only
operating-system (Windows) products are retained. -/
def recognizedFamily (f : String) : Bool := f == "Windows"

/-- Modelled from the spec: a raw product stripped to its parsed form once
its required ID attribute is known to be present. -/
def stripProduct (p : RawProduct) : ProductXML :=
  { productID := p.productID.getD "", fullName := p.fullName }

/-- Modelled from the spec: a raw vulnerability stripped to its parsed form
once its required CVE attribute is known to be present. -/
def stripVuln (v : RawVulnerability) : VulnerabilityXML :=
  { cve := v.cve.getD "", score := v.score, revisions := v.revisions
    remediations := v.remediations }

/-- Modelled from the spec: the IDs of the retained (operating-system family)
products of a raw product list. -/
def winIDs (ps : List RawProduct) : List String :=
  (ps.filter (fun p => recognizedFamily p.family)).map (fun p => p.productID.getD "")

/-- Modelled from the spec: does a raw vulnerability reference at least one
retained product through one of its remediation entries. -/
def referencesWin (ps : List RawProduct) (v : RawVulnerability) : Bool :=
  v.remediations.any (fun r => r.productIDs.any (fun pid => (winIDs ps).contains pid))

/-- Modelled from the spec: the MalformedInputError conditions — the byte
stream is not valid XML, or a required attribute (product ID, CVE
identifier) is absent on an element. -/
def badRaw : RawBulletin → Bool
  | .invalidXML => true
  | .doc ps vs _ => ps.any (fun p => p.productID.isNone) || vs.any (fun v => v.cve.isNone)

/-- Modelled from the spec: parseMSRCXML, the bulletin parser.  It fails with
MalformedInputError on invalid XML or a missing required attribute, skips
unknown elements silently, retains only products under the recognized
product family filter, and retains only vulnerabilities referencing such
products. -/
def parseMSRCXML : RawBulletin → Except ParseError IntermediateDoc
  | .invalidXML => .error .malformedInput
  | .doc ps vs _ =>
    if ps.any (fun p => p.productID.isNone) || vs.any (fun v => v.cve.isNone) then
      .error .malformedInput
    else
      .ok { winProducts := (ps.filter (fun p => recognizedFamily p.family)).map stripProduct
            winVulnerabities := (vs.filter (fun v => referencesWin ps v)).map stripVuln }

/-- Modelled from the spec: the full ingestion pipeline, parse then
buildGraphs; an error in either stage aborts the ingestion with that error
and no graph set. -/
def ingest (raw : RawBulletin) : Except ParseError (List VulnerabilityGraph) :=
  (parseMSRCXML raw).bind mapToVulnGraphs

/-- Modelled from the spec: one remediation entry with its ProductID
references restricted to the product table. -/
def restrictRem (table : List String) (r : VulnerabilityRemediationXML) : VulnerabilityRemediationXML :=
  { r with productIDs := r.productIDs.filter (fun pid => table.contains pid) }

/-- Modelled from the spec: one vulnerability record with every remediation
entry's ProductID references restricted to the product table. -/
def restrictVuln (table : List String) (v : VulnerabilityXML) : VulnerabilityXML :=
  { v with remediations := v.remediations.map (restrictRem table) }

/-- Modelled from the spec: the document with every remediation entry's
ProductID references restricted to the product table, the references the
graph builder is specified to drop silently. -/
def restrictRefs (doc : IntermediateDoc) : IntermediateDoc :=
  { winProducts := doc.winProducts
    winVulnerabities := doc.winVulnerabities.map
      (restrictVuln (doc.winProducts.map (fun p => p.productID))) }

/-- Modelled from the spec: the shape of a graph that dangling-reference
dropping must not change: its name, its product table, and which CVEs it
contains. -/
def graphSummary (g : VulnerabilityGraph) : String × List (String × String) × List String :=
  (g.productName, g.products, g.vulnerabities.map (fun v => v.cve))

/-! ## Vulnerability matcher (spec section 4.4) -/

/-- Modelled from the spec: the known-kinds allowlist deciding whether a
remediation entry carries an actionable fix; unknown kinds default to
informational. -/
def isVendorFix (t : String) : Bool := t == "Vendor Fix"

/-- Modelled from the spec: supersedence — an entry is excluded from the
matching decision when some entry of the same vulnerability with overlapping
ProductIDs carries a supersedes reference equal to this entry's description
(article identifier). -/
def supersededBy (rems : List VulnerabilityRemediationXML) (r : VulnerabilityRemediationXML) : Bool :=
  rems.any (fun q =>
    q.supercedence == some r.description && q.productIDs.any (fun pid => r.productIDs.contains pid))

/-- Modelled from the spec: the authoritative fixes of a vulnerability — the
actual-fix entries carrying a parseable fixed build that are not superseded;
each paired with its parsed build and its fixed-build string. -/
def authoritativeFixes (v : VulnerabilityXML) : List (List Nat × String) :=
  v.remediations.filterMap (fun r =>
    if isVendorFix r.remediationType && !supersededBy v.remediations r then
      match r.fixedBuild with
      | some fb => (parseBuild fb).map (fun b => (b, fb))
      | none => none
    else none)

/-- Modelled from the spec: fold keeping the lowest fixed build seen so far
(ties keep the earlier entry). -/
def minFixAux (best : List Nat × String) : List (List Nat × String) → List Nat × String
  | [] => best
  | f :: fs => minFixAux (if cmpParts f.1 best.1 == .lt then f else best) fs

/-- Modelled from the spec: the earliest (lowest) qualifying fixed build, the
minimum upgrade that closes the gap. -/
def minFix : List (List Nat × String) → Option (List Nat × String)
  | [] => none
  | f :: fs => some (minFixAux f fs)

/-- Modelled from the spec: one match result.  The remediation target is the
fixed-build string of the earliest authoritative fix (none when the
vulnerability carries no actionable fix); the indeterminate flag marks the
findings produced when the host build cannot be parsed. -/
structure Finding where
  cve : String
  score : Float
  isRemediated : Bool
  remediatedBuild : Option String
  indeterminate : Bool

/-- Modelled from the spec: the per-vulnerability matching decision for a
parsed host build.  A vulnerability with no authoritative fix is flagged
with no target; otherwise the host is vulnerable iff its build compares
less than the lowest authoritative fixed build. -/
def matchVuln (host : List Nat) (v : VulnerabilityXML) : Option Finding :=
  match minFix (authoritativeFixes v) with
  | none => some { cve := v.cve, score := v.score, isRemediated := false
                   remediatedBuild := none, indeterminate := false }
  | some (b, fb) =>
    if cmpParts host b == .lt then
      some { cve := v.cve, score := v.score, isRemediated := false
             remediatedBuild := some fb, indeterminate := false }
    else none

/-- Modelled from the spec: the matcher.  An unparseable host build degrades
every vulnerability of the graph into an indeterminate finding instead of
failing the whole call. -/
def matchGraph (g : VulnerabilityGraph) (hostBuild : String) : List Finding :=
  match parseBuild hostBuild with
  | none => g.vulnerabities.map (fun v =>
      { cve := v.cve, score := v.score, isRemediated := false
        remediatedBuild := none, indeterminate := true })
  | some hb => g.vulnerabities.filterMap (matchVuln hb)

end Msrc

namespace Sso

/-- Embedded from server/sso/authorization_response.go: the resp struct
holding the decoded SAML response and the raw response string.  The SAML
Response XML type itself is defined outside the available sources, so it is
a type parameter here. -/
structure resp (R : Type) where
  response : Option R
  rawResp : String

/-- Embedded from server/sso/authorization_response.go: rawResponse returns
the raw response string. -/
def rawResponse {R : Type} (r : resp R) : String := r.rawResp

/-- Embedded from server/sso/authorization_response.go: DecodeAuthResponse.
The Go standard library decoders (base64.StdEncoding.DecodeString and the
encoding/xml decoder for the Response type) are abstracted as the b64Decode
and xmlDecode parameters, returning none exactly when the Go call returns a
non-nil error; the wrapped error is modelled by its message prefix. -/
def DecodeAuthResponse {R : Type} (b64Decode : String → Option (List Nat))
    (xmlDecode : List Nat → Option R) (samlResponse : String) : Except String (resp R) :=
  match b64Decode samlResponse with
  | none => .error "decoding saml response"
  | some decoded =>
    match xmlDecode decoded with
    | none => .error "decoding response xml"
    | some saml => .ok { response := some saml, rawResp := samlResponse }

end Sso

namespace Msrc

/-! ## Concrete fixtures used by the witness theorems -/

/-- Remediation fixture: a vendor fix for product 1 at build 1.2.3. -/
def remW1 : VulnerabilityRemediationXML :=
  { remediationType := "Vendor Fix", fixedBuild := some "1.2.3", productIDs := ["1"]
    description := "5000001", supercedence := none, restartRequired := "Yes" }

/-- Vulnerability fixture referencing product 1. -/
def vW1 : VulnerabilityXML := { cve := "CVE-0001", score := 4.1, revisions := [], remediations := [remW1] }

/-- Vulnerability fixture whose only remediation references a product ID
absent from every product table in the fixtures. -/
def vW2 : VulnerabilityXML :=
  { cve := "CVE-0002", score := 2.0, revisions := []
    remediations := [{ remediationType := "Vendor Fix", fixedBuild := some "9.9"
                       productIDs := ["999"], description := "5000002"
                       supercedence := none, restartRequired := "Yes" }] }

/-- Document fixture: two product variants grouping to Alpha, one to Beta. -/
def docW : IntermediateDoc :=
  { winProducts := [{ productID := "1", fullName := "Alpha" },
                    { productID := "2", fullName := "Alpha (Server Core installation)" },
                    { productID := "3", fullName := "Beta" }]
    winVulnerabities := [vW1, vW2] }

/-- The Alpha graph that ingesting docW produces. -/
def gAlphaW : VulnerabilityGraph :=
  { productName := "Alpha"
    products := [("1", "Alpha"), ("2", "Alpha (Server Core installation)")]
    vulnerabities := [vW1] }

/-- The Beta graph that ingesting docW produces. -/
def gBetaW : VulnerabilityGraph :=
  { productName := "Beta", products := [("3", "Beta")], vulnerabities := [] }

/-- Supersedence fixture: the older vendor fix, article 5012647. -/
def remA4 : VulnerabilityRemediationXML :=
  { remediationType := "Vendor Fix", fixedBuild := some "10.0.17763.2803", productIDs := ["11568"]
    description := "5012647", supercedence := none, restartRequired := "Yes" }

/-- Supersedence fixture: the newer vendor fix superseding article 5012647. -/
def remB4 : VulnerabilityRemediationXML :=
  { remediationType := "Vendor Fix", fixedBuild := some "10.0.17763.2928"
    productIDs := ["11568", "11569"], description := "5013941"
    supercedence := some "5012647", restartRequired := "Yes" }

/-- Vulnerability fixture with the superseded and superseding fixes. -/
def vW4 : VulnerabilityXML :=
  { cve := "CVE-2022-29126", score := 4.3, revisions := [], remediations := [remA4, remB4] }

/-- Graph fixture for the supersedence claim. -/
def gW4 : VulnerabilityGraph :=
  { productName := "Windows 10"
    products := [("11568", "Windows 10 Version 1809 for 32-bit Systems")]
    vulnerabities := [vW4] }

/-- The finding that matching host build 1.2.2 against vW1 produces. -/
def fW9 : Finding :=
  { cve := "CVE-0001", score := 4.1, isRemediated := false
    remediatedBuild := some "1.2.3", indeterminate := false }

/-- Raw bulletin fixture with a product element missing its required
product-ID attribute. -/
def rawBadW : RawBulletin :=
  .doc [{ productID := none, fullName := "Windows 10", family := "Windows" }] [] ["ExtraElement"]

/-- Raw product list fixture: one operating-system product and one product
of an unrecognized family. -/
def rawPsW : List RawProduct :=
  [{ productID := some "1", fullName := "Windows 10 Version 1809 for 32-bit Systems", family := "Windows" },
   { productID := some "7", fullName := "ESU Tool", family := "Developer Tools" }]

/-- Raw vulnerability list fixture: one vulnerability referencing the
retained product, one referencing only the filtered-out product. -/
def rawVsW : List RawVulnerability :=
  [{ cve := some "CVE-0001", score := 4.1, revisions := [], remediations := [remW1] },
   { cve := some "CVE-0002", score := 2.0, revisions := []
     remediations := [{ remediationType := "Vendor Fix", fixedBuild := some "1.0"
                        productIDs := ["7"], description := "500"
                        supercedence := none, restartRequired := "Yes" }] }]

/-- Document fixture with a dangling ProductID reference (42) inside its
only remediation entry. -/
def docW7 : IntermediateDoc :=
  { winProducts := [{ productID := "1", fullName := "Alpha" }]
    winVulnerabities := [{ cve := "CVE-0001", score := 1.0, revisions := []
                           remediations := [{ remediationType := "Vendor Fix"
                                              fixedBuild := some "1.0"
                                              productIDs := ["1", "42"]
                                              description := "500"
                                              supercedence := none
                                              restartRequired := "Yes" }] }] }

end Msrc

/-- Base64 oracle fixture for the SSO witness: succeeds only on b2s=. -/
def b64W : String → Option (List Nat) := fun s => if s == "b2s=" then some [111, 107] else none

/-- XML oracle fixture for the SSO witness: succeeds only on the bytes the
base64 oracle produces. -/
def xmlW : List Nat → Option Nat := fun d => if d == [111, 107] then some 1 else none

namespace Msrc

/-! ## Comparator lemmas -/

theorem cmpParts_nil_left (ys : List Nat) :
    cmpParts [] ys = if ys.all (fun y => y == 0) then .eq else .lt := by
  cases ys <;> rfl

theorem cmpParts_nil_right (xs : List Nat) :
    cmpParts xs [] = if xs.all (fun x => x == 0) then .eq else .gt := by
  cases xs <;> rfl

theorem cmpParts_cons_cons (x y : Nat) (xs ys : List Nat) :
    cmpParts (x :: xs) (y :: ys) =
      if x < y then .lt else if y < x then .gt else cmpParts xs ys := rfl

theorem all_zero_replicate (k : Nat) :
    (List.replicate k 0).all (fun y => y == 0) = true := by
  simp [List.all_eq_true, List.mem_replicate]

theorem cmpParts_self (a : List Nat) : cmpParts a a = .eq := by
  induction a with
  | nil => rfl
  | cons x xs ih => simp [cmpParts_cons_cons, ih]

theorem cmpParts_replicate_right (a : List Nat) (k : Nat) :
    cmpParts a (List.replicate k 0) = cmpParts a [] := by
  induction a generalizing k with
  | nil =>
    rw [cmpParts_nil_left, all_zero_replicate]
    rfl
  | cons x xs ih =>
    cases k with
    | zero => rfl
    | succ k =>
      rw [List.replicate_succ, cmpParts_cons_cons, cmpParts_nil_right]
      rcases Nat.eq_zero_or_pos x with hx | hx
      · subst hx
        simp only [Nat.lt_irrefl, if_false, ih k, cmpParts_nil_right]
        simp
      · simp [Nat.not_lt_zero, hx, Nat.pos_iff_ne_zero.mp hx]

theorem cmpParts_replicate_left (b : List Nat) (k : Nat) :
    cmpParts (List.replicate k 0) b = cmpParts [] b := by
  induction b generalizing k with
  | nil =>
    rw [cmpParts_nil_right, all_zero_replicate]
    rfl
  | cons y ys ih =>
    cases k with
    | zero => rfl
    | succ k =>
      rw [List.replicate_succ, cmpParts_cons_cons, cmpParts_nil_left]
      rcases Nat.eq_zero_or_pos y with hy | hy
      · subst hy
        simp only [Nat.lt_irrefl, if_false, ih k, cmpParts_nil_left]
        simp
      · simp [Nat.not_lt_zero, hy, Nat.pos_iff_ne_zero.mp hy]

theorem cmpParts_append_zeros_right (a b : List Nat) (k : Nat) :
    cmpParts a (b ++ List.replicate k 0) = cmpParts a b := by
  induction b generalizing a with
  | nil => simpa using cmpParts_replicate_right a k
  | cons y ys ih =>
    cases a with
    | nil =>
      rw [List.cons_append, cmpParts_nil_left, cmpParts_nil_left]
      simp [List.all_append, all_zero_replicate, List.all_cons, Bool.and_assoc]
    | cons x xs =>
      rw [List.cons_append, cmpParts_cons_cons, cmpParts_cons_cons, ih]

theorem cmpParts_append_zeros_left (a b : List Nat) (k : Nat) :
    cmpParts (a ++ List.replicate k 0) b = cmpParts a b := by
  induction a generalizing b with
  | nil => simpa using cmpParts_replicate_left b k
  | cons x xs ih =>
    cases b with
    | nil =>
      rw [List.cons_append, cmpParts_nil_right, cmpParts_nil_right]
      simp [List.all_append, all_zero_replicate, List.all_cons, Bool.and_assoc]
    | cons y ys =>
      rw [List.cons_append, cmpParts_cons_cons, cmpParts_cons_cons, ih]

theorem cmpParts_lex (p : List Nat) (x y : Nat) (xs ys : List Nat) (h : x < y) :
    cmpParts (p ++ x :: xs) (p ++ y :: ys) = .lt := by
  induction p with
  | nil => simp [cmpParts_cons_cons, h]
  | cons c cs ih => simp [cmpParts_cons_cons, ih]

end Msrc

/-- C2: compareBuilds orders dotted components lexicographically by numeric
value; missing trailing components of the shorter sequence are treated as
zero; the three named examples evaluate as stated. -/
theorem c2_build_comparator :
    Msrc.compareBuilds "10.0.19043.1706" "10.0.19043.1706" = some .eq
    ∧ Msrc.compareBuilds "9.0.1" "10.0.0" = some .lt
    ∧ Msrc.compareBuilds "1.2" "1.2.0" = some .eq
    ∧ (∀ a b : List Nat, ∀ k : Nat,
        Msrc.cmpParts a (b ++ List.replicate k 0) = Msrc.cmpParts a b
        ∧ Msrc.cmpParts (a ++ List.replicate k 0) b = Msrc.cmpParts a b)
    ∧ (∀ p : List Nat, ∀ x y : Nat, ∀ xs ys : List Nat,
        x < y → Msrc.cmpParts (p ++ x :: xs) (p ++ y :: ys) = .lt) := by
  refine ⟨by decide, by decide, by decide, ?_, ?_⟩
  · intro a b k
    exact ⟨Msrc.cmpParts_append_zeros_right a b k, Msrc.cmpParts_append_zeros_left a b k⟩
  · intro p x y xs ys h
    exact Msrc.cmpParts_lex p x y xs ys h

/-- C2 witness: the general clauses of the comparator theorem applied at
concrete components, discharging the numeric hypothesis there. -/
theorem c2_build_comparator_witness :
    Msrc.cmpParts ([1] ++ List.replicate 2 0) [1] = Msrc.cmpParts [1] [1]
    ∧ Msrc.cmpParts [10, 0, 9] [10, 0, 10] = .lt := by
  constructor
  · exact (c2_build_comparator.2.2.2.1 [1] [1] 2).2
  · have h := c2_build_comparator.2.2.2.2 [10, 0] 9 10 [] [] (by decide)
    simpa using h

namespace Msrc

/-! ## Grouping and graph-builder lemmas -/

theorem mem_dedupAux (x : String) (l : List String) :
    ∀ seen : List String, x ∈ dedupAux seen l ↔ x ∈ l ∧ x ∉ seen := by
  induction l with
  | nil => intro seen; simp [dedupAux]
  | cons k ks ih =>
    intro seen
    by_cases h : k ∈ seen
    · rw [dedupAux, if_pos h, ih]
      constructor
      · rintro ⟨hx, hs⟩
        exact ⟨List.mem_cons_of_mem _ hx, hs⟩
      · rintro ⟨hk, hs⟩
        rcases List.mem_cons.mp hk with rfl | hx
        · exact absurd h hs
        · exact ⟨hx, hs⟩
    · rw [dedupAux, if_neg h]
      constructor
      · intro hx
        rcases List.mem_cons.mp hx with rfl | hx'
        · exact ⟨List.mem_cons_self _ _, h⟩
        · obtain ⟨h1, h2⟩ := (ih (k :: seen)).mp hx'
          exact ⟨List.mem_cons_of_mem _ h1, fun hs => h2 (List.mem_cons_of_mem _ hs)⟩
      · rintro ⟨hk, hs⟩
        rcases List.mem_cons.mp hk with rfl | hx
        · exact List.mem_cons_self _ _
        · by_cases hxk : x = k
          · subst hxk; exact List.mem_cons_self _ _
          · exact List.mem_cons_of_mem _
              ((ih _).mpr ⟨hx, fun hm => (List.mem_cons.mp hm).elim hxk hs⟩)

theorem nodup_dedupAux (l : List String) : ∀ seen, (dedupAux seen l).Nodup := by
  induction l with
  | nil => intro seen; simp [dedupAux]
  | cons k ks ih =>
    intro seen
    by_cases h : k ∈ seen
    · rw [dedupAux, if_pos h]
      exact ih seen
    · rw [dedupAux, if_neg h]
      refine List.nodup_cons.mpr ⟨?_, ih _⟩
      intro hmem
      exact ((mem_dedupAux k ks (k :: seen)).mp hmem).2 (List.mem_cons_self _ _)

theorem mem_dedupFirst (x : String) (l : List String) : x ∈ dedupFirst l ↔ x ∈ l := by
  rw [dedupFirst, mem_dedupAux]
  simp

theorem nodup_dedupFirst (l : List String) : (dedupFirst l).Nodup := nodup_dedupAux l []

theorem graphFor_productName (doc : IntermediateDoc) (k : String) :
    (graphFor doc k).productName = k := rfl

theorem graphFor_products (doc : IntermediateDoc) (k : String) :
    (graphFor doc k).products =
      (doc.winProducts.filter (fun p => groupKey p.fullName == k)).map
        (fun p => (p.productID, p.fullName)) := rfl

theorem graphFor_vulns (doc : IntermediateDoc) (k : String) :
    (graphFor doc k).vulnerabities =
      doc.winVulnerabities.filter (fun v => v.remediations.any (fun r =>
        r.productIDs.any (fun pid =>
          (((doc.winProducts.filter (fun p => groupKey p.fullName == k)).map
            (fun p => p.productID)).contains pid)))) := rfl

theorem graphFor_ids (doc : IntermediateDoc) (k : String) :
    (graphFor doc k).products.map Prod.fst =
      (doc.winProducts.filter (fun p => groupKey p.fullName == k)).map
        (fun p => p.productID) := by
  rw [graphFor_products, List.map_map]
  rfl

theorem mapToVulnGraphs_ok {doc : IntermediateDoc} {gs : List VulnerabilityGraph}
    (h : mapToVulnGraphs doc = .ok gs) :
    gs = (dedupFirst (doc.winProducts.map (fun p => groupKey p.fullName))).map (graphFor doc)
    ∧ doc.winProducts ≠ [] := by
  by_cases he : doc.winProducts.isEmpty
  · rw [mapToVulnGraphs, if_pos he] at h
    exact Except.noConfusion h
  · rw [mapToVulnGraphs, if_neg he] at h
    injection h with h2
    exact ⟨h2.symm, by simpa [List.isEmpty_iff] using he⟩

end Msrc

/-- C1: for every ingested document and every produced graph G, a
vulnerability record of the document is included in G iff at least one of
its remediation entries' ProductIDs intersects G's ProductID set; as a
consequence a vulnerability may belong to zero, one, or many graphs. -/
theorem c1_vulnerability_graph_membership (doc : Msrc.IntermediateDoc)
    (gs : List Msrc.VulnerabilityGraph) (h : Msrc.mapToVulnGraphs doc = .ok gs) :
    ∀ g ∈ gs, ∀ v ∈ doc.winVulnerabities,
      (v ∈ g.vulnerabities ↔
        ∃ r ∈ v.remediations, ∃ pid ∈ r.productIDs, pid ∈ g.products.map Prod.fst) := by
  obtain ⟨rfl, -⟩ := Msrc.mapToVulnGraphs_ok h
  intro g hg v hv
  rw [List.mem_map] at hg
  obtain ⟨k, hk, rfl⟩ := hg
  rw [Msrc.graphFor_vulns, Msrc.graphFor_ids, List.mem_filter]
  simp [hv, List.contains]

/-- C1 witness: the membership criterion applied at a concrete document,
graph and vulnerability, with the intersecting ProductID exhibited. -/
theorem c1_vulnerability_graph_membership_witness : Msrc.vW1 ∈ Msrc.gAlphaW.vulnerabities := by
  have h := c1_vulnerability_graph_membership Msrc.docW [Msrc.gAlphaW, Msrc.gBetaW] rfl
    Msrc.gAlphaW (List.mem_cons_self _ _) Msrc.vW1 (List.mem_cons_self _ _)
  exact h.mpr ⟨Msrc.remW1, List.mem_cons_self _ _, "1", List.mem_cons_self _ _, by decide⟩

/-- C3: buildGraphs produces exactly one graph per distinct normalized
display-name grouping key of the product table — the graph names are the
distinct keys in first-appearance order without duplication, and each
ProductID sits in exactly the graph of its own normalized name. -/
theorem c3_one_graph_per_grouping_key (doc : Msrc.IntermediateDoc)
    (gs : List Msrc.VulnerabilityGraph) (h : Msrc.mapToVulnGraphs doc = .ok gs) :
    gs.map (fun g => g.productName)
      = Msrc.dedupFirst (doc.winProducts.map (fun p => Msrc.groupKey p.fullName))
    ∧ (gs.map (fun g => g.productName)).Nodup
    ∧ gs.length
      = (Msrc.dedupFirst (doc.winProducts.map (fun p => Msrc.groupKey p.fullName))).length
    ∧ ∀ g ∈ gs, ∀ p ∈ doc.winProducts,
        ((p.productID, p.fullName) ∈ g.products ↔ Msrc.groupKey p.fullName = g.productName) := by
  obtain ⟨rfl, -⟩ := Msrc.mapToVulnGraphs_ok h
  have hnames :
      ((Msrc.dedupFirst (doc.winProducts.map (fun p => Msrc.groupKey p.fullName))).map
        (Msrc.graphFor doc)).map (fun g => g.productName)
      = Msrc.dedupFirst (doc.winProducts.map (fun p => Msrc.groupKey p.fullName)) := by
    rw [List.map_map]
    exact List.map_id _
  refine ⟨hnames, by rw [hnames]; exact Msrc.nodup_dedupFirst _, by simp, ?_⟩
  intro g hg p hp
  rw [List.mem_map] at hg
  obtain ⟨k, hk, rfl⟩ := hg
  rw [Msrc.graphFor_products, Msrc.graphFor_productName, List.mem_map]
  constructor
  · rintro ⟨q, hq, heq⟩
    rw [List.mem_filter] at hq
    have hqk : Msrc.groupKey q.fullName = k := by simpa using hq.2
    have hfn : q.fullName = p.fullName := congrArg Prod.snd heq
    rw [← hfn]
    exact hqk
  · intro hkey
    exact ⟨p, List.mem_filter.mpr ⟨hp, by simpa using hkey⟩, rfl⟩

/-- C3 witness: the produced graph names are exactly the distinct grouping
keys of the concrete fixture document, in order of first appearance. -/
theorem c3_one_graph_per_grouping_key_witness :
    [Msrc.gAlphaW, Msrc.gBetaW].map (fun g => g.productName)
      = Msrc.dedupFirst (Msrc.docW.winProducts.map (fun p => Msrc.groupKey p.fullName)) :=
  (c3_one_graph_per_grouping_key Msrc.docW [Msrc.gAlphaW, Msrc.gBetaW] rfl).1

namespace Msrc

/-! ## Parser-error and dangling-reference lemmas -/

theorem any_contains_filter_sub {table ids : List String}
    (hsub : ∀ pid, pid ∈ ids → pid ∈ table) (l : List String) :
    ((l.filter (fun pid => table.contains pid)).any (fun pid => ids.contains pid))
      = (l.any (fun pid => ids.contains pid)) := by
  refine Bool.coe_iff_coe.mp ?_
  simp only [List.any_eq_true, List.mem_filter]
  constructor
  · rintro ⟨pid, ⟨hmem, -⟩, hin⟩
    exact ⟨pid, hmem, hin⟩
  · rintro ⟨pid, hmem, hin⟩
    refine ⟨pid, ⟨hmem, ?_⟩, hin⟩
    have hpt : pid ∈ table := hsub pid (by simpa using hin)
    simpa using hpt

theorem ids_sub_table (doc : IntermediateDoc) (k : String) :
    ∀ pid, pid ∈ (doc.winProducts.filter (fun p => groupKey p.fullName == k)).map
        (fun p => p.productID) →
      pid ∈ doc.winProducts.map (fun p => p.productID) := by
  intro pid h
  rw [List.mem_map] at h ⊢
  obtain ⟨p, hp, rfl⟩ := h
  exact ⟨p, (List.mem_filter.mp hp).1, rfl⟩

theorem any_congr {α : Type} {p q : α → Bool} (l : List α) (h : ∀ x ∈ l, p x = q x) :
    l.any p = l.any q := by
  induction l with
  | nil => rfl
  | cons a as ih =>
    rw [List.any_cons, List.any_cons, h a (List.mem_cons_self _ _),
      ih (fun x hx => h x (List.mem_cons_of_mem _ hx))]

theorem restrictVuln_keeps_pred (doc : IntermediateDoc) (k : String) (v : VulnerabilityXML) :
    ((restrictVuln (doc.winProducts.map (fun p => p.productID)) v).remediations.any
      (fun r => r.productIDs.any (fun pid =>
        (((doc.winProducts.filter (fun p => groupKey p.fullName == k)).map
          (fun p => p.productID)).contains pid))))
    = (v.remediations.any (fun r => r.productIDs.any (fun pid =>
        (((doc.winProducts.filter (fun p => groupKey p.fullName == k)).map
          (fun p => p.productID)).contains pid)))) := by
  have hrem : (restrictVuln (doc.winProducts.map (fun p => p.productID)) v).remediations
      = v.remediations.map (restrictRem (doc.winProducts.map (fun p => p.productID))) := rfl
  rw [hrem, List.any_map]
  refine any_congr v.remediations (fun r _ => ?_)
  show ((r.productIDs.filter (fun pid =>
      (doc.winProducts.map (fun p => p.productID)).contains pid)).any (fun pid =>
      (((doc.winProducts.filter (fun p => groupKey p.fullName == k)).map
        (fun p => p.productID)).contains pid)))
    = (r.productIDs.any (fun pid =>
      (((doc.winProducts.filter (fun p => groupKey p.fullName == k)).map
        (fun p => p.productID)).contains pid)))
  exact any_contains_filter_sub (ids_sub_table doc k) r.productIDs

theorem graphSummary_restrict (doc : IntermediateDoc) (k : String) :
    graphSummary (graphFor (restrictRefs doc) k) = graphSummary (graphFor doc k) := by
  have hname : (graphFor (restrictRefs doc) k).productName = (graphFor doc k).productName := rfl
  have hprod : (graphFor (restrictRefs doc) k).products = (graphFor doc k).products := rfl
  have hcve : (graphFor (restrictRefs doc) k).vulnerabities.map (fun v => v.cve)
      = (graphFor doc k).vulnerabities.map (fun v => v.cve) := by
    have h0 : (graphFor (restrictRefs doc) k).vulnerabities
        = (doc.winVulnerabities.map (restrictVuln (doc.winProducts.map (fun p => p.productID)))).filter
            (fun v => v.remediations.any (fun r => r.productIDs.any (fun pid =>
              (((doc.winProducts.filter (fun p => groupKey p.fullName == k)).map
                (fun p => p.productID)).contains pid)))) := rfl
    rw [h0, graphFor_vulns, List.filter_map, List.map_map]
    simp only [Function.comp_def]
    rw [List.filter_congr (fun v _ => restrictVuln_keeps_pred doc k v)]
    rfl
  rw [graphSummary, graphSummary, hname, hprod, hcve]

end Msrc

/-- C6: an input that is not valid XML, or whose elements lack a required
attribute (product ID or CVE identifier), makes parse return
MalformedInputError, and the whole ingestion then yields that error and no
graph set. -/
theorem c6_malformed_input (raw : Msrc.RawBulletin) :
    (Msrc.parseMSRCXML raw = .error .malformedInput ↔ Msrc.badRaw raw = true)
    ∧ (Msrc.badRaw raw = true → Msrc.ingest raw = .error .malformedInput) := by
  have hiff : Msrc.parseMSRCXML raw = .error .malformedInput ↔ Msrc.badRaw raw = true := by
    cases raw with
    | invalidXML => simp [Msrc.parseMSRCXML, Msrc.badRaw]
    | doc ps vs os =>
      cases h : (ps.any (fun p => p.productID.isNone) || vs.any (fun v => v.cve.isNone)) <;>
        simp [Msrc.parseMSRCXML, Msrc.badRaw, h]
  refine ⟨hiff, fun hb => ?_⟩
  rw [Msrc.ingest, hiff.mpr hb]
  rfl

/-- C6 witness: a raw bulletin whose product element is missing the required
product-ID attribute is malformed, and ingesting it produces the error and
zero graphs. -/
theorem c6_malformed_input_witness :
    Msrc.badRaw Msrc.rawBadW = true
    ∧ Msrc.ingest Msrc.rawBadW = .error .malformedInput :=
  ⟨by decide, (c6_malformed_input Msrc.rawBadW).2 (by decide)⟩

/-- C7: buildGraphs returns UnresolvedProductError exactly when the document
product table is empty; any document with a non-empty table succeeds; and
restricting every remediation entry's ProductID references to the product
table (dropping dangling references) changes no graph's name, product table
or CVE set. -/
theorem c7_unresolved_product_and_dangling_refs (doc : Msrc.IntermediateDoc) :
    (Msrc.mapToVulnGraphs doc = .error .unresolvedProduct ↔ doc.winProducts = [])
    ∧ (doc.winProducts ≠ [] → ∃ gs, Msrc.mapToVulnGraphs doc = .ok gs)
    ∧ (Msrc.mapToVulnGraphs (Msrc.restrictRefs doc)).map (fun gs => gs.map Msrc.graphSummary)
        = (Msrc.mapToVulnGraphs doc).map (fun gs => gs.map Msrc.graphSummary) := by
  have hr : (Msrc.restrictRefs doc).winProducts = doc.winProducts := rfl
  by_cases he : doc.winProducts.isEmpty
  · have h1 : Msrc.mapToVulnGraphs doc = .error .unresolvedProduct := by
      rw [Msrc.mapToVulnGraphs, if_pos he]
    have h2 : Msrc.mapToVulnGraphs (Msrc.restrictRefs doc) = .error .unresolvedProduct := by
      rw [Msrc.mapToVulnGraphs, hr, if_pos he]
    refine ⟨⟨fun _ => List.isEmpty_iff.mp he, fun _ => h1⟩, fun hne => ?_, by rw [h1, h2]⟩
    exact absurd (List.isEmpty_iff.mp he) hne
  · have h1 : Msrc.mapToVulnGraphs doc
        = .ok ((Msrc.dedupFirst (doc.winProducts.map (fun p => Msrc.groupKey p.fullName))).map
            (Msrc.graphFor doc)) := by
      rw [Msrc.mapToVulnGraphs, if_neg he]
    have h2 : Msrc.mapToVulnGraphs (Msrc.restrictRefs doc)
        = .ok ((Msrc.dedupFirst (doc.winProducts.map (fun p => Msrc.groupKey p.fullName))).map
            (Msrc.graphFor (Msrc.restrictRefs doc))) := by
      rw [Msrc.mapToVulnGraphs, hr, if_neg he]
    refine ⟨⟨fun hc => ?_, fun hc => ?_⟩, fun _ => ⟨_, h1⟩, ?_⟩
    · rw [h1] at hc
      exact Except.noConfusion hc
    · rw [hc] at he
      exact absurd rfl he
    · have hlist : ((Msrc.dedupFirst (doc.winProducts.map (fun p => Msrc.groupKey p.fullName))).map
            (Msrc.graphFor (Msrc.restrictRefs doc))).map Msrc.graphSummary
          = ((Msrc.dedupFirst (doc.winProducts.map (fun p => Msrc.groupKey p.fullName))).map
            (Msrc.graphFor doc)).map Msrc.graphSummary := by
        rw [List.map_map, List.map_map]
        exact List.map_congr_left (fun k _ => Msrc.graphSummary_restrict doc k)
      rw [h1, h2]
      exact congrArg Except.ok hlist

/-- C7 witness: the dangling reference 42 in the fixture document is dropped
with no error — the document still ingests successfully and dropping the
reference changes no graph summary. -/
theorem c7_unresolved_product_and_dangling_refs_witness :
    (∃ gs, Msrc.mapToVulnGraphs Msrc.docW7 = .ok gs)
    ∧ (Msrc.mapToVulnGraphs (Msrc.restrictRefs Msrc.docW7)).map (fun gs => gs.map Msrc.graphSummary)
        = (Msrc.mapToVulnGraphs Msrc.docW7).map (fun gs => gs.map Msrc.graphSummary) :=
  ⟨(c7_unresolved_product_and_dangling_refs Msrc.docW7).2.1 (by decide),
   (c7_unresolved_product_and_dangling_refs Msrc.docW7).2.2⟩

/-- C8: a well-formed bulletin (no missing required attributes) parses
successfully whatever unknown elements it carries and however many
unrecognized-family products it lists; the retained products are exactly
the recognized-family ones and the retained vulnerabilities are exactly the
ones referencing a retained product. -/
theorem c8_family_filter_and_unknown_elements (ps : List Msrc.RawProduct)
    (vs : List Msrc.RawVulnerability) (o o' : List String)
    (hp : ps.all (fun p => p.productID.isSome) = true)
    (hv : vs.all (fun v => v.cve.isSome) = true) :
    ∃ d : Msrc.IntermediateDoc,
      Msrc.parseMSRCXML (.doc ps vs o) = .ok d
      ∧ Msrc.parseMSRCXML (.doc ps vs o') = .ok d
      ∧ (∀ p ∈ ps, Msrc.recognizedFamily p.family = true → Msrc.stripProduct p ∈ d.winProducts)
      ∧ (∀ q ∈ d.winProducts, ∃ p ∈ ps,
          Msrc.recognizedFamily p.family = true ∧ Msrc.stripProduct p = q)
      ∧ (∀ v ∈ vs, (Msrc.stripVuln v ∈ d.winVulnerabities ↔ Msrc.referencesWin ps v = true)) := by
  have hguard : (ps.any (fun p => p.productID.isNone) || vs.any (fun v => v.cve.isNone)) = false := by
    rw [Bool.or_eq_false_iff, List.any_eq_false, List.any_eq_false]
    constructor
    · intro p hp2 hnone
      have hs := (List.all_eq_true.mp hp) p hp2
      rw [Option.isNone_iff_eq_none] at hnone
      rw [hnone] at hs
      exact Bool.noConfusion hs
    · intro v hv2 hnone
      have hs := (List.all_eq_true.mp hv) v hv2
      rw [Option.isNone_iff_eq_none] at hnone
      rw [hnone] at hs
      exact Bool.noConfusion hs
  refine ⟨{ winProducts := (ps.filter (fun p => Msrc.recognizedFamily p.family)).map Msrc.stripProduct
            winVulnerabities := (vs.filter (fun v => Msrc.referencesWin ps v)).map Msrc.stripVuln },
          by simp [Msrc.parseMSRCXML, hguard], by simp [Msrc.parseMSRCXML, hguard], ?_, ?_, ?_⟩
  · intro p hp2 hrec
    exact List.mem_map.mpr ⟨p, List.mem_filter.mpr ⟨hp2, hrec⟩, rfl⟩
  · intro q hq
    obtain ⟨p, hp2, rfl⟩ := List.mem_map.mp hq
    obtain ⟨hp3, hp4⟩ := List.mem_filter.mp hp2
    exact ⟨p, hp3, hp4, rfl⟩
  · intro v hv2
    constructor
    · intro hmem
      obtain ⟨v', hv', heq⟩ := List.mem_map.mp hmem
      obtain ⟨hv3, hv4⟩ := List.mem_filter.mp hv'
      have hremeq : v'.remediations = v.remediations := by
        have h5 := congrArg Msrc.VulnerabilityXML.remediations heq
        simpa [Msrc.stripVuln] using h5
      rw [Msrc.referencesWin] at hv4 ⊢
      rw [← hremeq]
      exact hv4
    · intro href
      exact List.mem_map.mpr ⟨v, List.mem_filter.mpr ⟨hv2, href⟩, rfl⟩

/-- C8 witness: the fixture bulletin with an extra unknown element, a
product of an unrecognized family, and a vulnerability referencing only that
product parses to the same document with or without the unknown element. -/
theorem c8_family_filter_and_unknown_elements_witness :
    ∃ d : Msrc.IntermediateDoc,
      Msrc.parseMSRCXML (.doc Msrc.rawPsW Msrc.rawVsW ["Note"]) = .ok d
      ∧ Msrc.parseMSRCXML (.doc Msrc.rawPsW Msrc.rawVsW []) = .ok d := by
  obtain ⟨d, h1, h2, -⟩ :=
    c8_family_filter_and_unknown_elements Msrc.rawPsW Msrc.rawVsW ["Note"] [] (by decide) (by decide)
  exact ⟨d, h1, h2⟩

namespace Msrc

/-! ## Matcher lemmas -/

theorem minFixAux_mem : ∀ (fs : List (List Nat × String)) (best : List Nat × String),
    minFixAux best fs ∈ best :: fs := by
  intro fs
  induction fs with
  | nil =>
    intro best
    rw [minFixAux]
    exact List.mem_cons_self _ _
  | cons g gs ih =>
    intro best
    rw [minFixAux]
    by_cases hc : (cmpParts g.1 best.1 == Ordering.lt) = true
    · rw [if_pos hc]
      exact List.mem_cons_of_mem _ (ih g)
    · rw [if_neg hc]
      rcases List.mem_cons.mp (ih best) with h | h
      · rw [h]
        exact List.mem_cons_self _ _
      · exact List.mem_cons_of_mem _ (List.mem_cons_of_mem _ h)

theorem minFix_mem {l : List (List Nat × String)} {x : List Nat × String}
    (h : minFix l = some x) : x ∈ l := by
  cases l with
  | nil => exact Option.noConfusion h
  | cons f fs =>
    rw [minFix] at h
    injection h with h
    rw [← h]
    exact minFixAux_mem fs f

theorem authoritativeFixes_parse {v : VulnerabilityXML} {b : List Nat} {fb : String}
    (h : (b, fb) ∈ authoritativeFixes v) : parseBuild fb = some b := by
  rw [authoritativeFixes, List.mem_filterMap] at h
  obtain ⟨r, hr, heq⟩ := h
  by_cases hg : (isVendorFix r.remediationType && !supersededBy v.remediations r) = true
  · rw [if_pos hg] at heq
    cases hfb : r.fixedBuild with
    | none =>
      rw [hfb] at heq
      exact Option.noConfusion heq
    | some fb0 =>
      rw [hfb] at heq
      rw [Option.map_eq_some'] at heq
      obtain ⟨b0, hb0, heq2⟩ := heq
      have hb2 : b0 = b := congrArg Prod.fst heq2
      have hfb2 : fb0 = fb := congrArg Prod.snd heq2
      rw [← hfb2, ← hb2]
      exact hb0
  · rw [if_neg hg] at heq
    exact Option.noConfusion heq

end Msrc

/-- C5: when the host build string cannot be parsed, match does not fail: it
returns one finding per vulnerability of the graph, preserving the CVEs,
and every finding is marked indeterminate. -/
theorem c5_unparseable_host_build (g : Msrc.VulnerabilityGraph) (s : String)
    (hs : Msrc.parseBuild s = none) :
    (Msrc.matchGraph g s).map (fun f => f.cve) = g.vulnerabities.map (fun v => v.cve)
    ∧ ∀ f ∈ Msrc.matchGraph g s, f.indeterminate = true := by
  have h1 : Msrc.matchGraph g s = g.vulnerabities.map (fun v =>
      { cve := v.cve, score := v.score, isRemediated := false
        remediatedBuild := none, indeterminate := true }) := by
    simp only [Msrc.matchGraph, hs]
  refine ⟨by rw [h1, List.map_map]; rfl, fun f hf => ?_⟩
  rw [h1, List.mem_map] at hf
  obtain ⟨v, hv, hfv⟩ := hf
  rw [← hfv]

/-- C5 witness: matching the fixture graph against an unparseable host build
keeps every CVE and marks every finding indeterminate. -/
theorem c5_unparseable_host_build_witness :
    (Msrc.matchGraph Msrc.gAlphaW "not-a-build").map (fun f => f.cve)
      = Msrc.gAlphaW.vulnerabities.map (fun v => v.cve)
    ∧ (Msrc.matchGraph Msrc.gAlphaW "not-a-build").all (fun f => f.indeterminate) = true := by
  have h := c5_unparseable_host_build Msrc.gAlphaW "not-a-build" rfl
  exact ⟨h.1, List.all_eq_true.mpr (fun f hf => h.2 f hf)⟩

/-- C4: when entry B supersedes entry A (B's supersedes reference equals A's
description) for the same vulnerability with overlapping ProductIDs, only
B's fixed build decides the match: a host at least A's fixed build X but
below B's fixed build Y is reported vulnerable with remediation target Y,
never X, while A stays present in the record. -/
theorem c4_supersedence_resolution (g : Msrc.VulnerabilityGraph) (v : Msrc.VulnerabilityXML)
    (A B : Msrc.VulnerabilityRemediationXML) (fa fb s : String) (X Y hb : List Nat)
    (hv : v ∈ g.vulnerabities)
    (hrems : v.remediations = [A, B])
    (hAk : Msrc.isVendorFix A.remediationType = true)
    (hBk : Msrc.isVendorFix B.remediationType = true)
    (hAfb : A.fixedBuild = some fa)
    (hBfb : B.fixedBuild = some fb)
    (hX : Msrc.parseBuild fa = some X)
    (hY : Msrc.parseBuild fb = some Y)
    (hsup : B.supercedence = some A.description)
    (hoverlap : B.productIDs.any (fun pid => A.productIDs.contains pid) = true)
    (hBns : Msrc.supersededBy v.remediations B = false)
    (hs : Msrc.parseBuild s = some hb)
    (hge : Msrc.cmpParts hb X ≠ .lt)
    (hlt : Msrc.cmpParts hb Y = .lt) :
    ∃ f ∈ Msrc.matchGraph g s,
      f.cve = v.cve ∧ f.remediatedBuild = some fb ∧ f.remediatedBuild ≠ some fa
      ∧ f.isRemediated = false ∧ f.indeterminate = false ∧ A ∈ v.remediations := by
  have hAs : Msrc.supersededBy [A, B] A = true := by
    rw [Msrc.supersededBy]
    refine List.any_eq_true.mpr ⟨B, List.mem_cons_of_mem _ (List.mem_cons_self _ _), ?_⟩
    rw [Bool.and_eq_true]
    exact ⟨by rw [hsup]; exact beq_self_eq_true _, hoverlap⟩
  have hBns2 : Msrc.supersededBy [A, B] B = false := by
    rw [← hrems]
    exact hBns
  have hfix : Msrc.authoritativeFixes v = [(Y, fb)] := by
    rw [Msrc.authoritativeFixes, hrems]
    simp [List.filterMap_cons, hAs, hBns2, hAk, hBk, hAfb, hBfb, hY]
  have hmv : Msrc.matchVuln hb v = some
      { cve := v.cve, score := v.score, isRemediated := false
        remediatedBuild := some fb, indeterminate := false } := by
    simp only [Msrc.matchVuln, hfix, Msrc.minFix, Msrc.minFixAux]
    rw [hlt]
    rfl
  refine ⟨{ cve := v.cve, score := v.score, isRemediated := false
            remediatedBuild := some fb, indeterminate := false }, ?_, rfl, rfl, ?_, rfl, rfl, ?_⟩
  · simp only [Msrc.matchGraph, hs]
    exact List.mem_filterMap.mpr ⟨v, hv, hmv⟩
  · intro hcontra
    have hfbfa : fb = fa := Option.some.inj hcontra
    rw [hfbfa] at hY
    have hXY : X = Y := Option.some.inj (hX.symm.trans hY)
    rw [← hXY] at hlt
    exact hge hlt
  · rw [hrems]
    exact List.mem_cons_self _ _

/-- C4 witness: with the fixture record carrying a superseded fix at
10.0.17763.2803 and a superseding fix at 10.0.17763.2928, a host at
10.0.17763.2900 is reported vulnerable with target 10.0.17763.2928. -/
theorem c4_supersedence_resolution_witness :
    ∃ f ∈ Msrc.matchGraph Msrc.gW4 "10.0.17763.2900",
      f.cve = Msrc.vW4.cve ∧ f.remediatedBuild = some "10.0.17763.2928"
      ∧ f.remediatedBuild ≠ some "10.0.17763.2803"
      ∧ f.isRemediated = false ∧ f.indeterminate = false
      ∧ Msrc.remA4 ∈ Msrc.vW4.remediations :=
  c4_supersedence_resolution Msrc.gW4 Msrc.vW4 Msrc.remA4 Msrc.remB4
    "10.0.17763.2803" "10.0.17763.2928" "10.0.17763.2900"
    [10, 0, 17763, 2803] [10, 0, 17763, 2928] [10, 0, 17763, 2900]
    (List.mem_cons_self _ _) rfl rfl rfl rfl rfl rfl rfl rfl (by decide) (by decide) rfl
    (by decide) (by decide)

/-- C9: matching is monotonic in the host build — when a finding is produced
because the host build is below the resolved fixed build, rerunning the
match with the host build raised to exactly that fixed-build value yields no
finding for that vulnerability. -/
theorem c9_monotonic_matching (g : Msrc.VulnerabilityGraph) (s fs : String)
    (hb t : List Nat) (v : Msrc.VulnerabilityXML) (f : Msrc.Finding)
    (hs : Msrc.parseBuild s = some hb)
    (hv : v ∈ g.vulnerabities)
    (hf : Msrc.matchVuln hb v = some f)
    (hft : f.remediatedBuild = some fs)
    (hts : Msrc.parseBuild fs = some t) :
    f ∈ Msrc.matchGraph g s
    ∧ Msrc.matchVuln t v = none
    ∧ (g.vulnerabities = [v] → Msrc.matchGraph g fs = []) := by
  have h1 : f ∈ Msrc.matchGraph g s := by
    simp only [Msrc.matchGraph, hs]
    exact List.mem_filterMap.mpr ⟨v, hv, hf⟩
  have h2 : Msrc.matchVuln t v = none := by
    cases hmf : Msrc.minFix (Msrc.authoritativeFixes v) with
    | none =>
      simp only [Msrc.matchVuln, hmf] at hf
      have hfeq := Option.some.inj hf
      rw [← hfeq] at hft
      exact Option.noConfusion hft
    | some bf =>
      obtain ⟨b, fb0⟩ := bf
      simp only [Msrc.matchVuln, hmf] at hf
      by_cases hc : (Msrc.cmpParts hb b == Ordering.lt) = true
      · rw [if_pos hc] at hf
        have hfeq := Option.some.inj hf
        rw [← hfeq] at hft
        have hfb : fb0 = fs := Option.some.inj hft
        rw [hfb] at hmf
        have hparse : Msrc.parseBuild fs = some b :=
          Msrc.authoritativeFixes_parse (Msrc.minFix_mem hmf)
        have hbt : t = b := Option.some.inj (hts.symm.trans hparse)
        simp only [Msrc.matchVuln, hmf, hbt]
        simp only [Msrc.cmpParts_self]
        rw [if_neg (by decide)]
      · rw [if_neg hc] at hf
        exact Option.noConfusion hf
  refine ⟨h1, h2, fun hgv => ?_⟩
  simp only [Msrc.matchGraph, hts, hgv]
  simp [List.filterMap_cons, h2]

/-- C9 witness: the fixture host 1.2.2 is below the fix 1.2.3 and yields a
finding; raising the host to exactly 1.2.3 yields none. -/
theorem c9_monotonic_matching_witness :
    Msrc.matchVuln [1, 2, 3] Msrc.vW1 = none
    ∧ Msrc.matchGraph Msrc.gAlphaW "1.2.3" = [] := by
  have h := c9_monotonic_matching Msrc.gAlphaW "1.2.2" "1.2.3" [1, 2, 2] [1, 2, 3]
    Msrc.vW1 Msrc.fW9 rfl (List.mem_cons_self _ _) rfl rfl rfl
  exact ⟨h.2.1, h.2.2 rfl⟩

/-- C10: DecodeAuthResponse returns an error (and no Auth) exactly in the
two failure modes — the input is not valid standard base64 or the decoded
bytes do not decode as a SAML Response document — and otherwise returns an
Auth whose rawResponse is the original input string unchanged. -/
theorem c10_decode_auth_response {R : Type} (b64 : String → Option (List Nat))
    (xml : List Nat → Option R) (s : String) :
    (b64 s = none → Sso.DecodeAuthResponse b64 xml s = .error "decoding saml response")
    ∧ (∀ d, b64 s = some d → xml d = none →
        Sso.DecodeAuthResponse b64 xml s = .error "decoding response xml")
    ∧ (∀ d r, b64 s = some d → xml d = some r →
        ∃ a, Sso.DecodeAuthResponse b64 xml s = .ok a
          ∧ Sso.rawResponse a = s ∧ a.response = some r) := by
  refine ⟨fun h => ?_, fun d h1 h2 => ?_, fun d r h1 h2 => ?_⟩
  · simp only [Sso.DecodeAuthResponse, h]
  · simp only [Sso.DecodeAuthResponse, h1, h2]
  · refine ⟨{ response := some r, rawResp := s }, ?_, rfl, rfl⟩
    simp only [Sso.DecodeAuthResponse, h1, h2]

/-- C10 witness: the concrete oracles succeed on b2s= and return the raw
input unchanged, and fail with the base64 error on an invalid input. -/
theorem c10_decode_auth_response_witness :
    (∃ a, Sso.DecodeAuthResponse b64W xmlW "b2s=" = .ok a
      ∧ Sso.rawResponse a = "b2s=" ∧ a.response = some 1)
    ∧ Sso.DecodeAuthResponse b64W xmlW "###" = .error "decoding saml response" :=
  ⟨(c10_decode_auth_response b64W xmlW "b2s=").2.2 [111, 107] 1 rfl rfl,
   (c10_decode_auth_response b64W xmlW "###").1 rfl⟩

theorem modelCheck_compare_eq : Msrc.compareBuilds "10.0.19043.1706" "10.0.19043.1706" = some .eq := by decide

theorem modelCheck_compare_lt : Msrc.compareBuilds "9.0.1" "10.0.0" = some .lt := by decide

theorem modelCheck_compare_pad : Msrc.compareBuilds "1.2" "1.2.0" = some .eq := by rfl

theorem modelCheck_compare_bad : Msrc.parseBuild "abc" = none := by rfl

theorem modelCheck_groupKey_1 : Msrc.groupKey "Windows 10 Version 1809 for 32-bit Systems" = "Windows 10" := by decide

theorem modelCheck_groupKey_2 : Msrc.groupKey "Windows Server 2019  (Server Core installation)" = "Windows Server 2019" := by decide

theorem modelCheck_groupKey_3 : Msrc.groupKey "Windows Server, version 20H2 (Server Core Installation)" = "Windows Server" := by decide

theorem modelCheck_groupKey_4 : Msrc.groupKey "Windows 7 for 32-bit Systems Service Pack 1" = "Windows 7" := by decide

theorem modelCheck_groupKey_5 : Msrc.groupKey "Windows RT 8.1" = "Windows RT 8.1" := by decide

theorem modelCheck_groupKey_6 : Msrc.groupKey "Windows Server 2008 for 32-bit Systems Service Pack 2 (Server Core installation)" = "Windows Server 2008" := by decide
